import Mathlib

set_option maxRecDepth 100000
set_option maxHeartbeats 1000000

/-
Verification development for the webR REPL application (src/repl/App.tsx).

The file embeds, shallowly, the parts of App.tsx that the specification
talks about: the regex-based asset inliner used by `handleBrowseMessage`,
the `handlePagerMessage` handler, and the output dispatch loop (the async
IIFE at the bottom of the file).  Strings are modelled as `List Char`,
file contents as `List Nat` (byte values), and the external collaborators
(webR.FS, the terminal, the editor) as an explicit environment record.
-/

namespace WebRRepl

/-! ## Regex engine

A small backtracking regular-expression engine sufficient for the two
patterns appearing in App.tsx:

  jsRegex  = /<script.*src=["'`](.+\.js)["'`].*>.*<\/script>/g
  cssRegex = /<link.*href=["'`](.+\.css)["'`].*>/g

The elements needed are: literal strings, a single-character class,
greedy `.*`, greedy `.+`, and one capturing group.  JavaScript `.` does
not match line terminators; greediness means the longest alternative that
allows the rest of the pattern to match is preferred, which the engine
implements by trying longer consumptions first. -/

inductive RElem where
  | lit : List Char → RElem
  | cls : List Char → RElem
  | dotStar : RElem
  | capPlusLit : List Char → RElem
  deriving Repr

/-- Characters matched by `.` in a JavaScript regex (no line terminators). -/
def isDotChar (c : Char) : Bool := c != '\n' && c != '\r'

/-- Length of the maximal leading run of characters matchable by `.`. -/
def dotSpan : List Char → Nat
  | [] => 0
  | c :: s => if isDotChar c then dotSpan s + 1 else 0

/-- Result of a regex match attempt: captures collected so far and the
remaining input. -/
abbrev RRes := List (List Char) × List Char

/-- Backtracking matcher in continuation-passing style.  `reMatch p s k`
tries to match the pattern list `p` against a prefix of `s`; on each way
of matching it calls `k caps rest` and returns the first `some` answer,
trying greedy (longest) alternatives first, as JavaScript does.  The
element `capPlusLit sfx` is a capturing group `(.+sfx)` with `sfx`
literal — the shape of the one group of each pattern in App.tsx: the
greedy `.+` tries longer spans first, `sfx` must follow immediately, and
the capture is everything the group consumed. -/
def reMatch : List RElem → List Char → (List (List Char) → List Char → Option RRes) → Option RRes
  | [], s, k => k [] s
  | .lit cs :: es, s, k =>
    if cs.isPrefixOf s then reMatch es (s.drop cs.length) k else none
  | .cls cs :: es, s, k =>
    match s with
    | [] => none
    | c :: s' => if cs.contains c then reMatch es s' k else none
  | .dotStar :: es, s, k =>
    (List.range (dotSpan s + 1)).reverse.findSome? fun n => reMatch es (s.drop n) k
  | .capPlusLit sfx :: es, s, k =>
    ((List.range (dotSpan s)).reverse.map fun i => i + 1).findSome? fun n =>
      if sfx.isPrefixOf (s.drop n) then
        reMatch es ((s.drop n).drop sfx.length) fun caps rest =>
          k ((s.take n ++ sfx) :: caps) rest
      else none

/-- Attempt a match anchored at the start of `s`.  Returns
`(matched text, first capture, rest of input)` on success. -/
def findAt (p : List RElem) (s : List Char) : Option (List Char × List Char × List Char) :=
  match reMatch p s (fun caps rest => some (caps, rest)) with
  | none => none
  | some (caps, rest) => some (s.take (s.length - rest.length), caps.headD [], rest)

/-- Leftmost match: try each start position from the left, as a
JavaScript global regex scan does.  Returns
`(text before the match, matched text, first capture, rest)`. -/
def findLeftmost (p : List RElem) : List Char → Option (List Char × List Char × List Char × List Char)
  | [] => (findAt p []).map fun r => ([], r.1, r.2.1, r.2.2)
  | c :: s' =>
    match findAt p (c :: s') with
    | some (m, cap, rest) => some ([], m, cap, rest)
    | none => (findLeftmost p s').map fun r => (c :: r.1, r.2.1, r.2.2.1, r.2.2.2)

/-- Model of `String.prototype.matchAll`: repeatedly find the leftmost
match and continue after it.  Returns the list of
`(matched text, first capture)` pairs.  (The fuel argument only bounds the
recursion; both patterns of App.tsx always consume at least one
character, so the fuel `s.length + 1` used by `matchAll` never runs out.) -/
def matchAllGo (p : List RElem) : Nat → List Char → List (List Char × List Char)
  | 0, _ => []
  | fuel + 1, s =>
    match findLeftmost p s with
    | none => []
    | some (_, m, cap, rest) => (m, cap) :: matchAllGo p fuel rest

/-- All matches of pattern `p` in `s`, in order, with their first capture. -/
def matchAll (p : List RElem) (s : List Char) : List (List Char × List Char) :=
  matchAllGo p (s.length + 1) s

/-- Model of `String.prototype.replace(pattern, repl)` with a plain string
pattern and a replacement containing no `$` sequences: replace the first
occurrence of `pat` in `s` by `repl`; if `pat` does not occur, return `s`
unchanged. -/
def replaceFirst : List Char → List Char → List Char → List Char
  | s, pat, repl =>
    if pat.isPrefixOf s then repl ++ s.drop pat.length
    else
      match s with
      | [] => []
      | c :: s' => c :: replaceFirst s' pat repl

/-- Quote characters accepted by the attribute patterns: the character
class `["'`]` of jsRegex and cssRegex. -/
def quoteChars : List Char := "\"'`".data

/-- The pattern `/<script.*src=["'`](.+\.js)["'`].*>.*<\/script>/` from
App.tsx line 100, element by element. -/
def jsRegex : List RElem :=
  [ .lit "<script".data, .dotStar, .lit "src=".data, .cls quoteChars,
    .capPlusLit ".js".data, .cls quoteChars, .dotStar,
    .lit ">".data, .dotStar, .lit "</script>".data ]

/-- The pattern `/<link.*href=["'`](.+\.css)["'`].*>/` from App.tsx
line 118, element by element. -/
def cssRegex : List RElem :=
  [ .lit "<link".data, .dotStar, .lit "href=".data, .cls quoteChars,
    .capPlusLit ".css".data, .cls quoteChars, .dotStar,
    .lit ">".data ]

/-! ## Bytes, text decoding and base64 -/

/-- Modelled from the spec: the source decodes file bytes with
`new TextDecoder('utf8')` (a platform API, not part of src/).  All
documents in this development are ASCII, for which UTF-8 decoding is the
identity on byte values. -/
def decodeBytes (bs : List Nat) : List Char := bs.map fun b => Char.ofNat b

/-- Encode an ASCII string as its list of byte values (used to build
concrete file systems in examples). -/
def encodeAscii (s : String) : List Nat := s.data.map fun c => c.toNat

/-- The standard base64 alphabet. -/
def base64Chars : List Char :=
  "ABCDEFGHIJKLMNOPQRSTUVWXYZabcdefghijklmnopqrstuvwxyz0123456789+/".data

/-- One base64 digit. -/
def b64Digit (n : Nat) : Char := base64Chars.getD n 'A'

/-- Modelled from the spec: `bufferToBase64` is imported from
`../webR/utils`, which is not under src/.  The spec describes it as the
base64 encoding used to build data URIs, and pins it with the example
encoding `body{color:red}` ↦ `Ym9keXtjb2xvcjpyZWR9`; this is standard
base64 with `=` padding. -/
def bufferToBase64 : List Nat → List Char
  | [] => []
  | [a] =>
    [b64Digit (a / 4), b64Digit (a % 4 * 16), '=', '=']
  | [a, b] =>
    [b64Digit (a / 4), b64Digit (a % 4 * 16 + b / 16), b64Digit (b % 16 * 4), '=']
  | a :: b :: c :: rest =>
    b64Digit (a / 4) :: b64Digit (a % 4 * 16 + b / 16) ::
      b64Digit (b % 16 * 4 + c / 64) :: b64Digit (c % 64) :: bufferToBase64 rest

/-! ## The asset inliner (handleBrowseMessage, App.tsx lines 82-138) -/

/-- Split a character list at every `/`, as `url.split('/')` does
(adjacent separators yield empty groups, and the result always has at
least one group). -/
def splitSlash : List Char → List (List Char)
  | [] => [[]]
  | c :: s =>
    if c = '/' then [] :: splitSlash s
    else
      match splitSlash s with
      | [] => [[c]]
      | g :: gs => (c :: g) :: gs

/-- Join groups with `/`, as `groups.join('/')` does. -/
def joinSlash : List (List Char) → List Char
  | [] => []
  | [g] => g
  | g :: gs => g ++ '/' :: joinSlash gs

/-- Model of `url.split('/').slice(0, -1).join('/')` (App.tsx line 84). -/
def rootOf (url : String) : String :=
  String.mk (joinSlash (splitSlash url.data).dropLast)

/-- Model of the template literal `` `${root}/${match[1]}` `` used as the
argument of `webR.FS.readFile` for each matched reference. -/
def assetPath (root : String) (ref : List Char) : String :=
  root ++ "/" ++ String.mk ref

/-- Model of the `Promise.all` over `webR.FS.readFile` calls: all reads
are issued, and the aggregate succeeds only if every read succeeds. -/
def readAssets (r : String → Option (List Nat)) (root : String) :
    List (List Char × List Char) → Option (List (List Nat))
  | [] => some []
  | m :: ms =>
    match r (assetPath root m.2) with
    | none => none
    | some f =>
      match readAssets r root ms with
      | none => none
      | some fs => some (f :: fs)

/-- The replacement text for one script match: the template literal of
App.tsx lines 111-113 (a newline, six spaces, the tag, a newline, four
spaces), with `uri` in place of `${jsContent[idx]}`. -/
def jsScriptTag (uri : List Char) : List Char :=
  "\n      <script type=\"text/javascript\" src=\"".data ++ uri ++ "\"></script>\n    ".data

/-- Data URIs built for script assets: `"data:text/javascript;base64," + enc`. -/
def jsUris (r : String → Option (List Nat)) (root : String) (content : List Char) :
    Option (List (List Char)) :=
  (readAssets r root (matchAll jsRegex content)).map
    (List.map fun f => "data:text/javascript;base64,".data ++ bufferToBase64 f)

/-- The `jsMatches.forEach` substitution pass: replace each matched text,
in match order, by its rewritten script tag. -/
def jsApply : List (List Char × List Char) → List Char → List Char
  | [], content => content
  | (m, uri) :: subs, content => jsApply subs (replaceFirst content m (jsScriptTag uri))

/-- The matched texts paired with their data URIs for the script pass. -/
def jsSubs (r : String → Option (List Nat)) (root : String) (content : List Char) :
    Option (List (List Char × List Char)) :=
  (jsUris r root content).map fun uris =>
    ((matchAll jsRegex content).map Prod.fst).zip uris

/-- The whole script phase of handleBrowseMessage: match, read all assets
(failing if any read fails, as `Promise.all` does), then substitute. -/
def jsPhase (r : String → Option (List Nat)) (root : String) (content : List Char) :
    Except String (List Char) :=
  match jsSubs r root content with
  | none => .error "Error reading file"
  | some subs => .ok (jsApply subs content)

/-- The baseline style constant `cssBaseStyle` of App.tsx line 117. -/
def cssBaseStyle : List Char :=
  "<style>body\x7bfont-family: sans-serif;\x7d</style>".data

/-- The replacement link tag `` `<link rel="stylesheet" href="${cssContent[idx]}"/>` ``. -/
def cssLinkTag (uri : List Char) : List Char :=
  "<link rel=\"stylesheet\" href=\"".data ++ uri ++ "\"/>".data

/-- Data URIs built for stylesheet assets: `"data:text/css;base64," + enc`. -/
def cssUris (r : String → Option (List Nat)) (root : String) (content : List Char) :
    Option (List (List Char)) :=
  (readAssets r root (matchAll cssRegex content)).map
    (List.map fun f => "data:text/css;base64,".data ++ bufferToBase64 f)

/-- The matched texts paired with their data URIs for the stylesheet pass. -/
def cssSubs (r : String → Option (List Nat)) (root : String) (content : List Char) :
    Option (List (List Char × List Char)) :=
  (cssUris r root content).map fun uris =>
    ((matchAll cssRegex content).map Prod.fst).zip uris

/-- The `cssMatches.forEach` substitution pass, carrying the mutable flag
`injectedBaseStyle` of App.tsx lines 116 and 128-135: the baseline style
is prepended to the replacement exactly when the flag is still false, and
the flag is then set. -/
def cssApplyGo : List (List Char × List Char) → List Char → Bool → List Char
  | [], content, _ => content
  | (m, uri) :: subs, content, injected =>
    let cssHtml := cssLinkTag uri
    let cssHtml := if injected = false then cssBaseStyle ++ cssHtml else cssHtml
    cssApplyGo subs (replaceFirst content m cssHtml) (if injected = false then true else injected)

/-- The stylesheet substitution pass started with `injectedBaseStyle = false`. -/
def cssApply (subs : List (List Char × List Char)) (content : List Char) : List Char :=
  cssApplyGo subs content false

/-- The whole stylesheet phase of handleBrowseMessage. -/
def cssPhase (r : String → Option (List Nat)) (root : String) (content : List Char) :
    Except String (List Char) :=
  match cssSubs r root content with
  | none => .error "Error reading file"
  | some subs => .ok (cssApply subs content)

/-- The asset inliner: the script phase followed by the stylesheet phase,
each failing if any of its asset reads fails. -/
def inlineAssets (r : String → Option (List Nat)) (root : String) (content : List Char) :
    Except String (List Char) :=
  match jsPhase r root content with
  | .error e => .error e
  | .ok c1 => cssPhase r root c1

/-- Forget the error message of an `Except` (used to state decidable
facts about inliner results). -/
def okOf : Except String (List Char) → Option (List Char)
  | .ok x => some x
  | .error _ => none

/-! ## The dispatch loop (App.tsx lines 319-389)

The collaborators (terminal, editor, plot, webR.FS, webR console input)
are modelled by an environment of fallible functions, and each handler by
the ordered list of collaborator calls it issues (its trace) together
with an optional failure.  A call that is issued before a failure occurs
is part of the trace; calls after the failure point are not. -/

/-- One collaborator call, as issued by the loop or a handler. -/
inductive Action where
  | println (s : String)
  | refreshFilesystem
  | readRequest (s : String)
  | writeConsole (cmd : String)
  | consoleError (s : String)
  | drawImage
  | newPlot
  | openFileInEditor (title path : String) (readOnly : Bool)
  | unlink (path : String)
  | openDataInEditor (title data : String)
  | openHtmlInEditor (content : List Char) (path : String)
  | readFile (path : String)
  | writeFile (path : String)
  deriving DecidableEq, Repr

/-- The payload of a canvas message (`msg.data.event`). -/
inductive CanvasData where
  | canvasImage
  | canvasNewPage
  | other
  deriving DecidableEq, Repr

/-- The payload of a pager message: `{ path, title, deleteFile }`. -/
structure PagerMsg where
  path : String
  title : String
  deleteFile : Bool
  deriving DecidableEq, Repr

/-- The payload of a view message: `{ title, data }` (the tabular data is
kept abstract as a string). -/
structure ViewMsg where
  title : String
  data : String
  deriving DecidableEq, Repr

/-- The payload of a browse message: `{ url }`. -/
structure BrowseMsg where
  url : String
  deriving DecidableEq, Repr

/-- One event pulled from the engine channel by `await webR.read()`,
tagged as in the `switch (output.type)` of the dispatch loop. -/
inductive OutputMessage where
  | stdout (s : String)
  | stderr (s : String)
  | prompt (s : String)
  | canvas (c : CanvasData)
  | pager (p : PagerMsg)
  | view (v : ViewMsg)
  | browse (b : BrowseMsg)
  | closed
  | unknown (t : String) (data : String)
  deriving DecidableEq, Repr

/-- The external collaborators: console input, the editor interface, and
the engine's virtual file system.  Fallible operations return `Except`. -/
structure Env where
  readLine : String → Except String String
  openFileInEditor : String → String → Bool → Except String Unit
  unlink : String → Except String Unit
  readFile : String → Option (List Nat)

/-- Model of `handleCanvasMessage` (App.tsx lines 66-72). -/
def handleCanvasMessage : CanvasData → List Action
  | .canvasImage => [.drawImage]
  | .canvasNewPage => [.newPlot]
  | .other => []

/-- Model of `handlePagerMessage` (App.tsx lines 74-80): open the file
read-only in the editor, then, only if `deleteFile` is set and the open
completed, unlink it.  A rejected `await` ends the handler with a
failure. -/
def handlePagerMessage (env : Env) (msg : PagerMsg) : List Action × Option String :=
  match env.openFileInEditor msg.title msg.path true with
  | .error e => ([.openFileInEditor msg.title msg.path true], some e)
  | .ok _ =>
    if msg.deleteFile then
      match env.unlink msg.path with
      | .error e => ([.openFileInEditor msg.title msg.path true, .unlink msg.path], some e)
      | .ok _ => ([.openFileInEditor msg.title msg.path true, .unlink msg.path], none)
    else ([.openFileInEditor msg.title msg.path true], none)

/-- The `webR.FS.readFile` calls issued by the script-phase
`Promise.all` fan-out, in map order. -/
def jsReadActions (root : String) (content : List Char) : List Action :=
  (matchAll jsRegex content).map fun m => .readFile (assetPath root m.2)

/-- The `webR.FS.readFile` calls issued by the stylesheet-phase
`Promise.all` fan-out, in map order. -/
def cssReadActions (root : String) (content : List Char) : List Action :=
  (matchAll cssRegex content).map fun m => .readFile (assetPath root m.2)

/-- Model of `handleBrowseMessage` (App.tsx lines 82-138): read the
document, inline its script assets then its stylesheet assets (each
phase issuing its reads and failing as a whole if any read fails), and
finally forward the rewritten text to the editor.  On any failure the
handler ends with that failure and `openHtmlInEditor` is never called. -/
def handleBrowseMessage (env : Env) (msg : BrowseMsg) : List Action × Option String :=
  let root := rootOf msg.url
  match env.readFile msg.url with
  | none => ([.readFile msg.url], some "Error reading file")
  | some bytes =>
    let content := decodeBytes bytes
    match jsPhase env.readFile root content with
    | .error e => ([.readFile msg.url] ++ jsReadActions root content, some e)
    | .ok c1 =>
      match cssPhase env.readFile root c1 with
      | .error e =>
        ([.readFile msg.url] ++ jsReadActions root content ++ cssReadActions root c1, some e)
      | .ok c2 =>
        ([.readFile msg.url] ++ jsReadActions root content ++ cssReadActions root c1
          ++ [.openHtmlInEditor c2 msg.url], none)

/-- Model of `handleViewMessage` (App.tsx lines 140-143). -/
def handleViewMessage (v : ViewMsg) : List Action := [.openDataInEditor v.title v.data]

/-- What one iteration of the dispatch loop does with one event,
distinguishing how the `switch` case synchronizes with the handler:
`sync` for cases handled inline (possibly leaving unhandled promise
rejections behind), `awaited` for `await handlePagerMessage(...)`,
`voided` for `void handleBrowseMessage(...)`, and `fatal` for the
`throw` of the closed case. -/
inductive StepResult where
  | sync (acts : List Action) (unhandled : List String)
  | awaited (acts : List Action) (err : Option String)
  | voided (acts : List Action) (err : Option String)
  | fatal (msg : String)
  deriving DecidableEq, Repr

/-- The error message thrown by the prompt case's rejection callback. -/
def promptReadErrorMsg : String :=
  "An error occurred reading from the R console terminal."

/-- The error message thrown by the closed case. -/
def channelClosedMsg : String :=
  "The webR communication channel has been closed"

/-- The `switch (output.type)` of the dispatch loop (App.tsx lines
354-387).  The prompt case first issues `void
filesInterface.refreshFilesystem()`, then requests a line from the
terminal; the `.then` success callback forwards the line with
`webR.writeConsole`, and the rejection callback logs the reason with
`console.error` and throws inside the promise chain, which becomes an
unhandled rejection. -/
def dispatchStep (env : Env) : OutputMessage → StepResult
  | .stdout s => .sync [.println s] []
  | .stderr s => .sync [.println ("\x1b[1;31m" ++ s ++ "\x1b[m")] []
  | .prompt s =>
    match env.readLine s with
    | .ok cmd => .sync [.refreshFilesystem, .readRequest s, .writeConsole cmd] []
    | .error reason =>
      .sync [.refreshFilesystem, .readRequest s, .consoleError reason] [promptReadErrorMsg]
  | .canvas c => .sync (handleCanvasMessage c) []
  | .pager p =>
    match handlePagerMessage env p with
    | (acts, err) => .awaited acts err
  | .view v => .sync (handleViewMessage v) []
  | .browse b =>
    match handleBrowseMessage env b with
    | (acts, err) => .voided acts err
  | .closed => .fatal channelClosedMsg
  | .unknown t data =>
    .sync [.consoleError ("Unimplemented output type: " ++ t), .consoleError data] []

/-- How a run of the dispatch loop ended: the channel was exhausted (in
the model, the supplied event list ran out), the closed case threw, or a
rejected `await` made the async IIFE reject. -/
inductive LoopEnd where
  | finished
  | channelClosed (msg : String)
  | handlerError (e : String)
  deriving DecidableEq, Repr

/-- The observable outcome of a run: the collaborator calls issued in
order, how many events were pulled and dispatched, how the loop ended,
and the unhandled promise rejections left behind. -/
structure LoopResult where
  trace : List Action
  processed : Nat
  ended : LoopEnd
  unhandled : List String
  deriving DecidableEq, Repr

/-- The dispatch loop run over a finite sequence of channel events.  An
awaited handler failure rejects the IIFE: no further event is pulled.  A
voided handler failure becomes an unhandled rejection and the loop pulls
the next event.  The closed case throws: no further event is pulled. -/
def runLoop (env : Env) : List OutputMessage → LoopResult
  | [] => ⟨[], 0, .finished, []⟩
  | ev :: rest =>
    match dispatchStep env ev with
    | .sync acts unh =>
      let r := runLoop env rest
      ⟨acts ++ r.trace, r.processed + 1, r.ended, unh ++ r.unhandled⟩
    | .awaited acts err =>
      match err with
      | some e => ⟨acts, 1, .handlerError e, []⟩
      | none =>
        let r := runLoop env rest
        ⟨acts ++ r.trace, r.processed + 1, r.ended, r.unhandled⟩
    | .voided acts err =>
      let r := runLoop env rest
      ⟨acts ++ r.trace, r.processed + 1, r.ended,
        (match err with | some e => [e] | none => []) ++ r.unhandled⟩
    | .fatal m => ⟨[], 1, .channelClosed m, []⟩

/-- Whether the loop body awaits the completion of the event's handler
before pulling the next event. -/
def awaitsHandler (env : Env) (ev : OutputMessage) : Bool :=
  match dispatchStep env ev with
  | .awaited _ _ => true
  | _ => false

/-! ## Auxiliary notions used by the statements -/

/-- Number of positions at which `pat` occurs as a substring of `s`. -/
def countOccs (pat s : List Char) : Nat :=
  (List.range (s.length + 1)).countP fun i => pat.isPrefixOf (s.drop i)

/-- The stylesheet substitution pass as it behaves once the baseline
style has already been injected: every replacement is the bare rewritten
link tag. -/
def cssApplyPlain : List (List Char × List Char) → List Char → List Char
  | [], content => content
  | (m, uri) :: subs, content => cssApplyPlain subs (replaceFirst content m (cssLinkTag uri))

/-- Whether a trace contains a call that forwards a document to the
viewer (`openHtmlInEditor`) or mutates engine storage (`unlink`,
`writeFile`). -/
def forwardsOrWrites (acts : List Action) : Bool :=
  acts.any fun a =>
    match a with
    | .openHtmlInEditor _ _ => true
    | .unlink _ => true
    | .writeFile _ => true
    | _ => false

/-- Whether a trace contains a `console.error` logging call. -/
def logsConsoleError (acts : List Action) : Bool :=
  acts.any fun a =>
    match a with
    | .consoleError _ => true
    | _ => false

/-- Some asset read issued by the inliner fails: either the read for one
of the script matches fails, or the script phase succeeds and the read
for one of the stylesheet matches of the script-phase output fails. -/
def someAssetReadFails (r : String → Option (List Nat)) (root : String)
    (content : List Char) : Prop :=
  (∃ m ∈ matchAll jsRegex content, r (assetPath root m.2) = none) ∨
  (∃ c1, jsPhase r root content = .ok c1 ∧
    ∃ m ∈ matchAll cssRegex c1, r (assetPath root m.2) = none)

/-- Follows the spec's words, for comparison with the implementation's
matching: a reference "pointing at a relative path" is one that is
neither an absolute http(s) URL nor an absolute filesystem path. -/
def specIsRelativePath (ref : List Char) : Bool :=
  !("http://".data.isPrefixOf ref) && !("https://".data.isPrefixOf ref)
    && !("/".data.isPrefixOf ref)

/-! ## Concrete fixtures for examples and counterexamples -/

/-- An environment in which every collaborator call succeeds and the
virtual file system is empty. -/
def envOk : Env where
  readLine := fun _ => .ok ""
  openFileInEditor := fun _ _ _ => .ok ()
  unlink := fun _ => .ok ()
  readFile := fun _ => none

/-- An environment whose editor rejects opens with the fail-fast stub
message of App.tsx line 53. -/
def envPagerFail : Env where
  readLine := fun _ => .ok ""
  openFileInEditor := fun _ _ _ => .error "Unable to open file, editor not initialised."
  unlink := fun _ => .ok ()
  readFile := fun _ => none

/-- An environment whose console read rejects. -/
def envReadFail : Env where
  readLine := fun _ => .error "read error"
  openFileInEditor := fun _ _ _ => .ok ()
  unlink := fun _ => .ok ()
  readFile := fun _ => none

/-- The document of the spec's worked example: `<link href="a.css">`. -/
def doc5 : List Char := "<link href=\"a.css\">".data

/-- An asset reader holding `body{color:red}` at `d/a.css`. -/
def reader5 : String → Option (List Nat) := fun p =>
  if p = "d/a.css" then some (encodeAscii "body\x7bcolor:red\x7d") else none

/-- The output text the spec's worked example promises. -/
def expected5 : List Char :=
  ("<style>body\x7bfont-family: sans-serif;\x7d</style>"
    ++ "<link rel=\"stylesheet\" href=\"data:text/css;base64,Ym9keXtjb2xvcjpyZWR9\"/>").data

/-- A document with two stylesheet references (on separate lines, so the
per-line greedy pattern sees two matches) and zero script references. -/
def doc4 : List Char := "<link href=\"a.css\">\n<link href=\"b.css\">".data

/-- An asset reader holding one-byte files at `d/a.css` and `d/b.css`. -/
def reader4 : String → Option (List Nat) := fun p =>
  if p = "d/a.css" then some (encodeAscii "A")
  else if p = "d/b.css" then some (encodeAscii "B")
  else none

/-- The inliner's output for `doc4` under `reader4`: the baseline style
immediately before the first rewritten stylesheet tag, then the second
rewritten tag, with the inner newline preserved. -/
def out4 : List Char :=
  cssBaseStyle ++ cssLinkTag "data:text/css;base64,QQ==".data ++ "\n".data
    ++ cssLinkTag "data:text/css;base64,Qg==".data

/-- The bytes of a document with one script reference to a missing
asset. -/
def bytesC3 : List Nat := encodeAscii "<script src=\"missing.js\"></script>"

/-- An environment that serves `d/doc.html` (a document whose only
script reference points at a missing asset) and nothing else. -/
def envC3 : Env where
  readLine := fun _ => .ok ""
  openFileInEditor := fun _ _ _ => .ok ()
  unlink := fun _ => .ok ()
  readFile := fun p => if p = "d/doc.html" then some bytesC3 else none

/-- A document whose only reference is an absolute URL (no relative
script or stylesheet references at all). -/
def docC6 : List Char := "<script src=\"https://code.example.net/app.js\"></script>".data

/-- An asset reader serving exactly the path the inliner builds for the
absolute reference of `docC6` under base path `""`. -/
def readerC6 : String → Option (List Nat) := fun p =>
  if p = "/https://code.example.net/app.js" then some (encodeAscii "x") else none

/-- Two link tags on a single line: the greedy pattern merges them into
one match. -/
def doc10 : List Char := "<link href=\"p.css\"><link href=\"q.css\">".data

/-- An asset reader serving only `q.css` (under base path `""`), not
`p.css`. -/
def reader10 : String → Option (List Nat) := fun p =>
  if p = "/q.css" then some (encodeAscii "q") else none

/-- A link tag with no `rel="stylesheet"` attribute. -/
def docNoRel : List Char := "<link href=\"c.css\">".data

/-- An asset reader defined only at the exact joined path `r/c.css`. -/
def readerNoRel : String → Option (List Nat) := fun p =>
  if p = "r/c.css" then some (encodeAscii "c") else none

/-- A script tag whose src is an absolute https URL. -/
def docAbsJs : List Char := "<script src=\"https://cdn.example.com/lib.js\"></script>".data

/-- An asset reader defined only at the verbatim join
`r/https://cdn.example.com/lib.js`. -/
def readerAbsJs : String → Option (List Nat) := fun p =>
  if p = "r/https://cdn.example.com/lib.js" then some (encodeAscii "j") else none

/-! ## Helper lemmas -/

/-- If the read for some match fails then the `Promise.all` aggregate
fails. -/
lemma readAssets_eq_none (r : String → Option (List Nat)) (root : String) :
    ∀ ms : List (List Char × List Char),
      (∃ m ∈ ms, r (assetPath root m.2) = none) → readAssets r root ms = none := by
  intro ms
  induction ms with
  | nil => rintro ⟨m, hm, _⟩; simp at hm
  | cons m ms ih =>
    rintro ⟨x, hx, hnone⟩
    rcases List.mem_cons.mp hx with rfl | hx
    · simp [readAssets, hnone]
    · cases hr : r (assetPath root m.2) with
      | none => simp [readAssets, hr]
      | some f => simp [readAssets, hr, ih ⟨x, hx, hnone⟩]

/-- If a script-phase asset read fails, the whole script phase fails. -/
lemma jsPhase_error_of_fail (r : String → Option (List Nat)) (root : String) (c : List Char)
    (h : ∃ m ∈ matchAll jsRegex c, r (assetPath root m.2) = none) :
    jsPhase r root c = .error "Error reading file" := by
  simp [jsPhase, jsSubs, jsUris, readAssets_eq_none r root _ h]

/-- If a stylesheet-phase asset read fails, the whole stylesheet phase
fails. -/
lemma cssPhase_error_of_fail (r : String → Option (List Nat)) (root : String) (c : List Char)
    (h : ∃ m ∈ matchAll cssRegex c, r (assetPath root m.2) = none) :
    cssPhase r root c = .error "Error reading file" := by
  simp [cssPhase, cssSubs, cssUris, readAssets_eq_none r root _ h]

/-- A document with no script matches passes the script phase unchanged. -/
lemma jsPhase_of_no_match (r : String → Option (List Nat)) (root : String) (c : List Char)
    (h : matchAll jsRegex c = []) : jsPhase r root c = .ok c := by
  simp [jsPhase, jsSubs, jsUris, h, readAssets, jsApply]

/-- A document with no stylesheet matches passes the stylesheet phase
unchanged (in particular, no baseline style is injected). -/
lemma cssPhase_of_no_match (r : String → Option (List Nat)) (root : String) (c : List Char)
    (h : matchAll cssRegex c = []) : cssPhase r root c = .ok c := by
  simp [cssPhase, cssSubs, cssUris, h, readAssets, cssApply, cssApplyGo]

/-- Once the `injectedBaseStyle` flag is set, the substitution pass is
the plain one: no further replacement carries the baseline style. -/
lemma cssApplyGo_true : ∀ (subs : List (List Char × List Char)) (c : List Char),
    cssApplyGo subs c true = cssApplyPlain subs c
  | [], _ => rfl
  | (m, u) :: subs, c => by
    simp only [cssApplyGo, cssApplyPlain]
    exact cssApplyGo_true subs _

/-- Every action of a list of asset-read fan-out actions is a
`readFile`. -/
lemma mem_readActionList {a : Action} {root : String} {c : List Char} {rx : List RElem}
    (h : a ∈ (matchAll rx c).map fun m => Action.readFile (assetPath root m.2)) :
    ∃ p, a = Action.readFile p := by
  obtain ⟨m, _, rfl⟩ := List.mem_map.mp h
  exact ⟨_, rfl⟩

/-- A trace consisting only of `readFile` calls forwards nothing to the
viewer and mutates no storage. -/
lemma forwardsOrWrites_eq_false : ∀ acts : List Action,
    (∀ a ∈ acts, ∃ p, a = Action.readFile p) → forwardsOrWrites acts = false
  | [], _ => rfl
  | a :: acts, h => by
    obtain ⟨p, rfl⟩ := h a (List.mem_cons_self a acts)
    have ih := forwardsOrWrites_eq_false acts fun x hx => h x (List.mem_cons_of_mem _ hx)
    simp only [forwardsOrWrites, List.any_cons] at ih ⊢
    simpa using ih

/-- A trace consisting only of `readFile` and `openHtmlInEditor` calls
contains no `console.error` call. -/
lemma logsConsoleError_eq_false : ∀ acts : List Action,
    (∀ a ∈ acts, (∃ p, a = Action.readFile p) ∨ ∃ c p, a = Action.openHtmlInEditor c p) →
      logsConsoleError acts = false
  | [], _ => rfl
  | a :: acts, h => by
    have ih := logsConsoleError_eq_false acts fun x hx => h x (List.mem_cons_of_mem _ hx)
    rcases h a (List.mem_cons_self a acts) with ⟨p, rfl⟩ | ⟨c, p, rfl⟩ <;>
      · simp only [logsConsoleError, List.any_cons] at ih ⊢
        simpa using ih

/-- Every collaborator call issued by the browse handler is a storage
read or the final `openHtmlInEditor`. -/
lemma handleBrowseMessage_trace (env : Env) (b : BrowseMsg) :
    ∀ a ∈ (handleBrowseMessage env b).1,
      (∃ p, a = Action.readFile p) ∨ ∃ c p, a = Action.openHtmlInEditor c p := by
  intro a ha
  simp only [handleBrowseMessage] at ha
  cases hdoc : env.readFile b.url with
  | none =>
    rw [hdoc] at ha
    simp only [List.mem_singleton] at ha
    exact Or.inl ⟨_, ha⟩
  | some bytes =>
    rw [hdoc] at ha
    simp only at ha
    cases hjs : jsPhase env.readFile (rootOf b.url) (decodeBytes bytes) with
    | error e =>
      rw [hjs] at ha
      simp only [List.mem_append, List.mem_singleton, jsReadActions] at ha
      rcases ha with ha | ha
      · exact Or.inl ⟨_, ha⟩
      · exact Or.inl (mem_readActionList ha)
    | ok c1 =>
      rw [hjs] at ha
      simp only at ha
      cases hcss : cssPhase env.readFile (rootOf b.url) c1 with
      | error e =>
        rw [hcss] at ha
        simp only [List.mem_append, List.mem_singleton, jsReadActions, cssReadActions] at ha
        rcases ha with (ha | ha) | ha
        · exact Or.inl ⟨_, ha⟩
        · exact Or.inl (mem_readActionList ha)
        · exact Or.inl (mem_readActionList ha)
      | ok c2 =>
        rw [hcss] at ha
        simp only [List.mem_append, List.mem_singleton, jsReadActions, cssReadActions] at ha
        rcases ha with ((ha | ha) | ha) | ha
        · exact Or.inl ⟨_, ha⟩
        · exact Or.inl (mem_readActionList ha)
        · exact Or.inl (mem_readActionList ha)
        · exact Or.inr ⟨_, _, ha⟩

/-- The browse handler never logs through `console.error`: its failures
are left to surface as unhandled rejections. -/
lemma logsConsoleError_browse (env : Env) (b : BrowseMsg) :
    logsConsoleError (handleBrowseMessage env b).1 = false :=
  logsConsoleError_eq_false _ (handleBrowseMessage_trace env b)

/-! ## Claims -/

/-- C1, counterexample: the claim says the dispatch loop awaits the
completion of every browse-document handler before pulling the next
event, but the browse case is dispatched with `void
handleBrowseMessage(...)`: it is not awaited. -/
theorem spec_C1_counterexample :
    awaitsHandler envOk (.browse ⟨"/tmp/doc.html"⟩) = false := by decide

/-- C1, amended: the dispatch loop awaits the handler's completion
before pulling the next event exactly for paged-document events;
browse-document events (like text, error-text, prompt, graphics-update
and data-view events) are dispatched without waiting for the handler to
complete. -/
theorem spec_C1_amended (env : Env) (ev : OutputMessage) :
    awaitsHandler env ev = true ↔ ∃ p, ev = OutputMessage.pager p := by
  cases ev with
  | prompt s =>
    cases h : env.readLine s with
    | ok cmd => simp [awaitsHandler, dispatchStep, h]
    | error r => simp [awaitsHandler, dispatchStep, h]
  | pager p =>
    rcases hpm : handlePagerMessage env p with ⟨acts, err⟩
    simp [awaitsHandler, dispatchStep, hpm]
  | browse b =>
    rcases hbm : handleBrowseMessage env b with ⟨acts, err⟩
    simp [awaitsHandler, dispatchStep, hbm]
  | stdout s => simp [awaitsHandler, dispatchStep]
  | stderr s => simp [awaitsHandler, dispatchStep]
  | canvas c => simp [awaitsHandler, dispatchStep]
  | view v => simp [awaitsHandler, dispatchStep]
  | closed => simp [awaitsHandler, dispatchStep]
  | unknown t d => simp [awaitsHandler, dispatchStep]

/-- C2, counterexample: the claim says a paged-document or
browse-document handler failure is caught, logged, and the loop proceeds
to the next event; but when the pager handler fails (here: the editor
rejects the open with its stub message) the awaited rejection terminates
the dispatch loop and the following stdout event is never processed. -/
theorem spec_C2_counterexample :
    runLoop envPagerFail [.pager ⟨"/tmp/p1", "fit", false⟩, .stdout "after"]
      = ⟨[.openFileInEditor "fit" "/tmp/p1" true], 1,
          .handlerError "Unable to open file, editor not initialised.", []⟩ := by decide

/-- C2, amended: a paged-document handler failure is not caught — it
propagates through the awaited call, terminates the dispatch loop, and
later events are not processed; a browse-document handler failure does
not terminate the loop, which proceeds to the next event, but it is not
caught or logged at the handler boundary either — it is left as an
unhandled rejection (the handler issues no `console.error` call). -/
theorem spec_C2_amended (env : Env) (p : PagerMsg) (b : BrowseMsg)
    (rest : List OutputMessage) (e₁ e₂ : String)
    (hp : (handlePagerMessage env p).2 = some e₁)
    (hb : (handleBrowseMessage env b).2 = some e₂) :
    runLoop env (.pager p :: rest)
      = ⟨(handlePagerMessage env p).1, 1, .handlerError e₁, []⟩ ∧
    (runLoop env (.browse b :: rest)).processed = (runLoop env rest).processed + 1 ∧
    (runLoop env (.browse b :: rest)).ended = (runLoop env rest).ended ∧
    (runLoop env (.browse b :: rest)).unhandled = e₂ :: (runLoop env rest).unhandled ∧
    logsConsoleError (handleBrowseMessage env b).1 = false := by
  rcases hpm : handlePagerMessage env p with ⟨pacts, perr⟩
  rcases hbm : handleBrowseMessage env b with ⟨bacts, berr⟩
  rw [hpm] at hp
  rw [hbm] at hb
  have hp' : perr = some e₁ := hp
  have hb' : berr = some e₂ := hb
  subst hp' hb'
  refine ⟨?_, ?_, ?_, ?_, ?_⟩
  · simp [runLoop, dispatchStep, hpm]
  · simp [runLoop, dispatchStep, hbm]
  · simp [runLoop, dispatchStep, hbm]
  · simp [runLoop, dispatchStep, hbm]
  · have h := logsConsoleError_browse env b
    rw [hbm] at h
    exact h

/-- C2, witness for the amended theorem at a concrete environment in
which the pager open fails with the editor stub message and the browse
document read fails. -/
theorem spec_C2_amended_witness :
    runLoop envPagerFail [.pager ⟨"/tmp/p2", "t2", false⟩]
      = ⟨(handlePagerMessage envPagerFail ⟨"/tmp/p2", "t2", false⟩).1, 1,
          .handlerError "Unable to open file, editor not initialised.", []⟩ :=
  (spec_C2_amended envPagerFail ⟨"/tmp/p2", "t2", false⟩ ⟨"d/x.html"⟩ []
    "Unable to open file, editor not initialised." "Error reading file"
    (by decide) (by decide)).1

/-- C3: if any single asset read issued by the inliner fails, the whole
browse handling fails: no (even partially) rewritten document is
forwarded to the viewer and engine storage is not modified. -/
theorem spec_C3 (env : Env) (b : BrowseMsg) (bytes : List Nat)
    (hdoc : env.readFile b.url = some bytes)
    (hfail : someAssetReadFails env.readFile (rootOf b.url) (decodeBytes bytes)) :
    (handleBrowseMessage env b).2.isSome = true ∧
    forwardsOrWrites (handleBrowseMessage env b).1 = false := by
  rcases hfail with h | ⟨c1, hok, h⟩
  · have hjs := jsPhase_error_of_fail env.readFile (rootOf b.url) (decodeBytes bytes) h
    simp only [handleBrowseMessage, hdoc, hjs]
    refine ⟨rfl, forwardsOrWrites_eq_false _ ?_⟩
    intro a ha
    simp only [List.mem_append, List.mem_singleton, jsReadActions] at ha
    rcases ha with ha | ha
    · exact ⟨_, ha⟩
    · exact mem_readActionList ha
  · have hcss := cssPhase_error_of_fail env.readFile (rootOf b.url) c1 h
    simp only [handleBrowseMessage, hdoc, hok, hcss]
    refine ⟨rfl, forwardsOrWrites_eq_false _ ?_⟩
    intro a ha
    simp only [List.mem_append, List.mem_singleton, jsReadActions, cssReadActions] at ha
    rcases ha with (ha | ha) | ha
    · exact ⟨_, ha⟩
    · exact mem_readActionList ha
    · exact mem_readActionList ha

/-- C3, witness: a concrete browse event whose document has one script
reference pointing at a missing asset. -/
theorem spec_C3_witness :
    (handleBrowseMessage envC3 ⟨"d/doc.html"⟩).2.isSome = true ∧
    forwardsOrWrites (handleBrowseMessage envC3 ⟨"d/doc.html"⟩).1 = false :=
  spec_C3 envC3 ⟨"d/doc.html"⟩ bytesC3 (by decide) (Or.inl (by decide))

/-- C4: with zero stylesheet matches the stylesheet pass is the
identity (no baseline style is injected); with at least one match the
output is obtained by replacing the first match with the baseline style
rule immediately followed by its rewritten tag, and every later match
with its bare rewritten tag only; concretely, a document with two
stylesheet references and zero script references yields exactly one
baseline style rule, positioned immediately before the first rewritten
tag, and exactly two data-URI stylesheet tags. -/
theorem spec_C4 :
    (∀ r root c, matchAll cssRegex c = [] → cssPhase r root c = .ok c) ∧
    (∀ r root c m0 u0 subs, cssSubs r root c = some ((m0, u0) :: subs) →
      cssPhase r root c
        = .ok (cssApplyPlain subs (replaceFirst c m0 (cssBaseStyle ++ cssLinkTag u0)))) ∧
    matchAll jsRegex doc4 = [] ∧
    (matchAll cssRegex doc4).length = 2 ∧
    inlineAssets reader4 "d" doc4 = .ok out4 ∧
    countOccs cssBaseStyle out4 = 1 ∧
    countOccs "data:text/css;base64,".data out4 = 2 := by
  refine ⟨?_, ?_, by decide, by decide, by rfl, by decide, by decide⟩
  · exact cssPhase_of_no_match
  · intro r root c m0 u0 subs h
    simp [cssPhase, h, cssApply, cssApplyGo, cssApplyGo_true]

/-- C4, witness: the structural conjunct applied to the worked example
document, whose single stylesheet replacement carries the baseline
style. -/
theorem spec_C4_witness :
    cssPhase reader5 "d" doc5
      = .ok (cssApplyPlain []
          (replaceFirst doc5 doc5
            (cssBaseStyle ++ cssLinkTag "data:text/css;base64,Ym9keXtjb2xvcjpyZWR9".data))) :=
  spec_C4.2.1 reader5 "d" doc5 doc5
    "data:text/css;base64,Ym9keXtjb2xvcjpyZWR9".data [] (by rfl)

/-- C5: on the spec's worked example — document `<link href="a.css">`
with asset `a.css` containing `body{color:red}` — the inliner returns
exactly the promised text. -/
theorem spec_C5 : inlineAssets reader5 "d" doc5 = .ok expected5 := by rfl

/-- C6, counterexample: the claim says the inliner is the identity on
every document with no relative script/stylesheet references, but a
document whose only reference is an absolute https URL is still matched
and rewritten, so the output differs from the input. -/
theorem spec_C6_counterexample :
    (matchAll jsRegex docC6).map Prod.snd = ["https://code.example.net/app.js".data] ∧
    specIsRelativePath "https://code.example.net/app.js".data = false ∧
    matchAll cssRegex docC6 = [] ∧
    (okOf (inlineAssets readerC6 "" docC6)).isSome = true ∧
    okOf (inlineAssets readerC6 "" docC6) ≠ some docC6 := by decide

/-- C6, amended: the inliner is the identity exactly on documents in
which neither the script pattern nor the stylesheet pattern has any
match; "no relative references" is not sufficient, since non-relative
(absolute URL) references are matched too. -/
theorem spec_C6_amended (r : String → Option (List Nat)) (root : String) (c : List Char)
    (hjs : matchAll jsRegex c = []) (hcss : matchAll cssRegex c = []) :
    inlineAssets r root c = .ok c := by
  have h1 := jsPhase_of_no_match r root c hjs
  have h2 := cssPhase_of_no_match r root c hcss
  simp [inlineAssets, h1, h2]

/-- C6, witness: a reference-free document passes through unchanged. -/
theorem spec_C6_amended_witness :
    inlineAssets (fun _ => none) "" "<p>hello</p>".data = .ok "<p>hello</p>".data :=
  spec_C6_amended (fun _ => none) "" "<p>hello</p>".data (by decide) (by decide)

/-- C7: every paged-document event opens the file read-only in the
editor first; when `deleteFile` is false no unlink is ever issued, and
when `deleteFile` is true and the open completed the trace is exactly
the open followed by the unlink. -/
theorem spec_C7 (env : Env) (p : PagerMsg) :
    (handlePagerMessage env p).1.head?
      = some (.openFileInEditor p.title p.path true) ∧
    (p.deleteFile = false →
      (handlePagerMessage env p).1 = [.openFileInEditor p.title p.path true]) ∧
    (p.deleteFile = true → env.openFileInEditor p.title p.path true = .ok () →
      (handlePagerMessage env p).1
        = [.openFileInEditor p.title p.path true, .unlink p.path]) := by
  refine ⟨?_, ?_, ?_⟩
  · cases ho : env.openFileInEditor p.title p.path true with
    | error e => simp [handlePagerMessage, ho]
    | ok u =>
      cases hd : p.deleteFile with
      | false => simp [handlePagerMessage, ho, hd]
      | true =>
        cases hu : env.unlink p.path with
        | error e => simp [handlePagerMessage, ho, hd, hu]
        | ok u => simp [handlePagerMessage, ho, hd, hu]
  · intro hd
    cases ho : env.openFileInEditor p.title p.path true with
    | error e => simp [handlePagerMessage, ho]
    | ok u => simp [handlePagerMessage, ho, hd]
  · intro hd ho
    cases hu : env.unlink p.path with
    | error e => simp [handlePagerMessage, ho, hd, hu]
    | ok u => simp [handlePagerMessage, ho, hd, hu]

/-- C7, witness: a transient paged document in a healthy environment is
opened read-only and then unlinked, in that order. -/
theorem spec_C7_witness :
    (handlePagerMessage envOk ⟨"/tmp/f", "t", true⟩).1
      = [.openFileInEditor "t" "/tmp/f" true, .unlink "/tmp/f"] :=
  (spec_C7 envOk ⟨"/tmp/f", "t", true⟩).2.2 rfl rfl

/-- C8: for every prompt event the handler issues the filesystem
refresh, then the console read request, in that order; when the read
succeeds the obtained line is forwarded back to the engine with
`webR.writeConsole`. -/
theorem spec_C8 (env : Env) (s : String) :
    (∀ cmd, env.readLine s = .ok cmd →
      dispatchStep env (.prompt s)
        = .sync [.refreshFilesystem, .readRequest s, .writeConsole cmd] []) ∧
    (∀ reason, env.readLine s = .error reason →
      dispatchStep env (.prompt s)
        = .sync [.refreshFilesystem, .readRequest s, .consoleError reason]
            [promptReadErrorMsg]) := by
  constructor
  · intro cmd h
    simp [dispatchStep, h]
  · intro reason h
    simp [dispatchStep, h]

/-- C8, witness: a concrete prompt event whose read succeeds refreshes
the file surface, then reads, then forwards the line. -/
theorem spec_C8_witness :
    dispatchStep envOk (.prompt "> ")
      = .sync [.refreshFilesystem, .readRequest "> ", .writeConsole ""] [] :=
  (spec_C8 envOk "> ").1 "" rfl

/-- C9, counterexample: the claim says a console-input read failure
terminates the dispatch loop and no further events are processed, but
after a failing prompt read the loop processes the following stdout
event and finishes normally (the thrown error only becomes an unhandled
rejection). -/
theorem spec_C9_counterexample :
    (runLoop envReadFail [.prompt "> ", .stdout "after"]).processed = 2 ∧
    (runLoop envReadFail [.prompt "> ", .stdout "after"]).ended = .finished ∧
    Action.println "after" ∈ (runLoop envReadFail [.prompt "> ", .stdout "after"]).trace ∧
    (runLoop envReadFail [.prompt "> ", .stdout "after"]).unhandled
      = [promptReadErrorMsg] := by decide

/-- C9, amended: channel closure terminates the dispatch loop with an
explicit fatal error and no further event is processed; a console-input
read failure, by contrast, does not terminate the loop — its reason is
logged via `console.error`, the thrown error is left as an unhandled
rejection, and the loop proceeds to the next event. -/
theorem spec_C9_amended (env : Env) (s reason : String) (rest : List OutputMessage)
    (h : env.readLine s = .error reason) :
    runLoop env (.closed :: rest) = ⟨[], 1, .channelClosed channelClosedMsg, []⟩ ∧
    (runLoop env (.prompt s :: rest)).trace
      = [.refreshFilesystem, .readRequest s, .consoleError reason]
          ++ (runLoop env rest).trace ∧
    (runLoop env (.prompt s :: rest)).processed = (runLoop env rest).processed + 1 ∧
    (runLoop env (.prompt s :: rest)).ended = (runLoop env rest).ended ∧
    (runLoop env (.prompt s :: rest)).unhandled
      = promptReadErrorMsg :: (runLoop env rest).unhandled := by
  refine ⟨?_, ?_, ?_, ?_, ?_⟩ <;> simp [runLoop, dispatchStep, h]

/-- C9, witness: the amended theorem at a concrete failing read. -/
theorem spec_C9_amended_witness :
    runLoop envReadFail [OutputMessage.closed]
      = ⟨[], 1, .channelClosed channelClosedMsg, []⟩ :=
  (spec_C9_amended envReadFail "> " "read error" [] (by rfl)).1

/-- C10, counterexample: the claim says every `<link>` tag whose href
ends in .css is matched and rewritten, each matched reference being
read; but two link tags on one line are merged into a single greedy
match capturing only the second reference — inlining succeeds even
though `p.css` cannot be read, because the first tag's reference is
never read (and its tag is not individually rewritten). -/
theorem spec_C10_counterexample :
    (matchAll cssRegex doc10).map Prod.snd = ["q.css".data] ∧
    reader10 "/p.css" = none ∧
    (okOf (inlineAssets reader10 "" doc10)).isSome = true := by decide

/-- C10, amended: matching is wider than the documented pattern set in
that `rel="stylesheet"` is not required (a link tag with only an href
ending in .css is matched) and non-relative references such as absolute
http(s) URLs are matched, each matched reference being read from the
path formed by joining the document's directory, a slash, and the
captured reference verbatim (the readers below are defined only at that
exact joined path); but the greedy per-line patterns merge several link
tags on one line into a single match capturing only the last
reference, so not every such tag is individually rewritten. -/
theorem spec_C10_amended :
    (matchAll cssRegex docNoRel).map Prod.snd = ["c.css".data] ∧
    (okOf (inlineAssets readerNoRel "r" docNoRel)).isSome = true ∧
    (matchAll jsRegex docAbsJs).map Prod.snd = ["https://cdn.example.com/lib.js".data] ∧
    specIsRelativePath "https://cdn.example.com/lib.js".data = false ∧
    (okOf (inlineAssets readerAbsJs "r" docAbsJs)).isSome = true ∧
    (matchAll cssRegex "<link href=\"m.css\"><link href=\"n.css\">".data).map Prod.snd
      = ["n.css".data] := by decide

end WebRRepl
